import Mathlib

/-!
Verification development for the RAG engine of this repository
(src/backend/services/rag_system.py, class EnhancedMUragSystem).

The Python code is shallowly embedded: pure string manipulation is
translated function by function; the external collaborators (vector store,
embedding provider, generative model, judge model, ArXiv feed, wall clock)
are oracles passed in as plain data or total functions; a model call that
can raise is an `Except String` value.  Floats carrying scores are modelled
by rationals.
-/

/- Batteries marks the core rational operations irreducible as an
elaboration-performance optimization; scores here are rationals and the
concrete witnesses evaluate them, so restore the default reducibility. -/
attribute [local semireducible] Rat.add Rat.mul Rat.inv Rat.sub
  Rat.ofScientific

namespace Rag

/-! ### Basic string helpers (Python semantics) -/

/-- The ASCII whitespace class of Python's str.strip and the regex class \s. -/
def isPySpace (c : Char) : Bool :=
  c = ' ' || c = '\t' || c = '\n' || c = '\r' || c = '\x0b' || c = '\x0c'

/-- Python str.strip() on a list of characters: remove leading and trailing
whitespace, nothing else. -/
def pstripCL (l : List Char) : List Char :=
  ((l.dropWhile isPySpace).reverse.dropWhile isPySpace).reverse

/-- Python str.strip(). -/
def pstrip (s : String) : String := String.mk (pstripCL s.data)

/-- Substring containment, Python's `needle in haystack`. -/
def containsSub (needle : List Char) : List Char → Bool
  | [] => needle.isEmpty
  | c :: rest => needle.isPrefixOf (c :: rest) || containsSub needle rest

/-- The scanner behind Python str.split() with no argument: split on
whitespace runs, no empty parts. -/
def pysplitGo : List Char → List Char → List String
  | [], acc => if acc.isEmpty then [] else [String.mk acc.reverse]
  | c :: rest, acc =>
    if isPySpace c then
      if acc.isEmpty then pysplitGo rest []
      else String.mk acc.reverse :: pysplitGo rest []
    else pysplitGo rest (c :: acc)

/-- Python str.split() with no argument. -/
def pysplit (s : String) : List String := pysplitGo s.data []

/-- Python str.lower(), on the ASCII range the indexed documents use. -/
def pyLower (s : String) : String := String.mk (s.data.map Char.toLower)

/-- Python slicing s[:n] by characters. -/
def pyTake (s : String) (n : Nat) : String := String.mk (s.data.take n)

/-- os.path.basename on a POSIX path: everything after the last slash. -/
def basename (s : String) : String :=
  String.mk (s.data.foldl (fun acc c => if c = '/' then [] else acc ++ [c]) [])

/-! ### Judge-score extraction
Model of `re.search(r'\[SCORE:\s*(\d+\.\d+|\d+)\]', result)` followed by
`float(...)` and clamping, shared by the three `_verify_*` checks
(src/backend/services/rag_system.py lines 588-601, 628-641, 668-681).
Digits are modelled as ASCII digits. -/

/-- Numeric value of a digit string. -/
def digitsVal (ds : List Char) : Nat :=
  ds.foldl (fun a c => a * 10 + (c.toNat - 48)) 0

/-- Value of a fractional digit string ("85" after a dot means 85/100). -/
def fracVal (ds : List Char) : ℚ :=
  (digitsVal ds : ℚ) / (10 : ℚ) ^ ds.length

/-- Try to match the pattern \[SCORE:\s*(\d+\.\d+|\d+)\] at the head of `l`,
returning the value of the captured group. -/
def matchScoreAt (l : List Char) : Option ℚ :=
  if ("[SCORE:".data).isPrefixOf l then
    let r1 := (l.drop 7).dropWhile isPySpace
    let d1 := r1.takeWhile Char.isDigit
    if d1.isEmpty then none
    else
      match r1.drop d1.length with
      | '.' :: r2 =>
        let d2 := r2.takeWhile Char.isDigit
        if d2.isEmpty then none
        else
          match r2.drop d2.length with
          | ']' :: _ => some ((digitsVal d1 : ℚ) + fracVal d2)
          | _ => none
      | ']' :: _ => some ((digitsVal d1 : ℚ))
      | _ => none
  else none

/-- re.search: scan left to right for the first position where the score
pattern matches. -/
def searchScore : List Char → Option ℚ
  | [] => none
  | c :: rest =>
    match matchScoreAt (c :: rest) with
    | some v => some v
    | none => searchScore rest

/-- The score a `_verify_*` check extracts from the judge output: the first
parsed `[SCORE: x.x]` value clamped by `max(0.0, min(score, 1.0))`, or the
neutral default 0.5 when no pattern parses. -/
def extractScore (s : String) : ℚ :=
  match searchScore s.data with
  | some v => max 0 (min v 1)
  | none => 0.5

/-! ### Think-block removal
Model of `_clean_think_blocks` (lines 730-734): two non-greedy DOTALL
`re.sub` passes removing `<think>...</think>` and
`<reasoning>...</reasoning>` spans, then `str.strip()`. -/

/-- The remainder of `l` after the first occurrence of `cl`, if any
(the tail of a leftmost-shortest regex match). -/
def dropThrough (cl : List Char) : List Char → Option (List Char)
  | [] => none
  | c :: rest =>
    if cl.isPrefixOf (c :: rest) then some ((c :: rest).drop cl.length)
    else dropThrough cl rest

theorem dropThrough_length {cl : List Char} (hcl : cl ≠ []) :
    ∀ {l r : List Char}, dropThrough cl l = some r → r.length < l.length := by
  intro l
  induction l with
  | nil => intro r h; simp [dropThrough] at h
  | cons c rest ih =>
    intro r h
    by_cases hp : cl.isPrefixOf (c :: rest)
    · simp only [dropThrough, hp, if_true, Option.some.injEq] at h
      subst h
      have h1 : 1 ≤ cl.length := by
        cases cl with
        | nil => exact absurd rfl hcl
        | cons _ _ => simp
      have := List.length_drop cl.length (c :: rest)
      simp only [List.length_cons] at this ⊢
      omega
    · simp only [dropThrough, hp, if_false] at h
      have := ih h
      simp only [List.length_cons]
      omega

/-- The scan of one non-greedy `re.sub(op..cl, '', text, flags=DOTALL)`
pass, with a structural fuel so the kernel can evaluate it; the fuel is
adequate whenever it is at least the list's length.  At each position where
`op` occurs and a later `cl` closes it, delete through the first such `cl`
and continue after it; otherwise keep the character.  (The nonemptiness
guards are vacuous at the call sites, where `op`, `cl` are the literal
tags.) -/
def removeTagGo (op cl : List Char) : Nat → List Char → List Char
  | _, [] => []
  | 0, l => l
  | fuel + 1, x :: xs =>
    if op ≠ [] ∧ cl ≠ [] ∧ op.isPrefixOf (x :: xs) then
      match dropThrough cl ((x :: xs).drop op.length) with
      | some r2 => removeTagGo op cl fuel r2
      | none => x :: removeTagGo op cl fuel xs
    else x :: removeTagGo op cl fuel xs

theorem removeTagGo_irrel (op cl : List Char) :
    ∀ f1 : Nat, ∀ f2 : Nat, ∀ l : List Char, l.length ≤ f1 → l.length ≤ f2 →
      removeTagGo op cl f1 l = removeTagGo op cl f2 l := by
  intro f1
  induction f1 with
  | zero =>
    intro f2 l h1 _
    have : l = [] := List.length_eq_zero.mp (by omega)
    subst this
    cases f2 <;> rfl
  | succ f1 ih =>
    intro f2 l h1 h2
    match l with
    | [] => cases f2 <;> rfl
    | x :: xs =>
      match f2 with
      | 0 => simp at h2
      | f2 + 1 =>
        simp only [removeTagGo]
        by_cases hcnd : op ≠ [] ∧ cl ≠ [] ∧ op.isPrefixOf (x :: xs)
        · rw [if_pos hcnd, if_pos hcnd]
          cases hdt : dropThrough cl ((x :: xs).drop op.length) with
          | some r2 =>
            have hlt := dropThrough_length hcnd.2.1 hdt
            simp only [List.length_drop, List.length_cons] at hlt
            simp only [List.length_cons] at h1 h2
            exact ih f2 r2 (by omega) (by omega)
          | none =>
            simp only [List.length_cons] at h1 h2
            rw [ih f2 xs (by omega) (by omega)]
        · rw [if_neg hcnd, if_neg hcnd]
          simp only [List.length_cons] at h1 h2
          rw [ih f2 xs (by omega) (by omega)]

/-- One pass of non-greedy `re.sub(op..cl, '', text, flags=DOTALL)`. -/
def removeTagAll (op cl l : List Char) : List Char :=
  removeTagGo op cl l.length l

/-- The defining one-step equation of `removeTagAll` on a cons cell. -/
theorem removeTagAll_cons (op cl : List Char) (x : Char) (xs : List Char) :
    removeTagAll op cl (x :: xs) =
      if op ≠ [] ∧ cl ≠ [] ∧ op.isPrefixOf (x :: xs) then
        match dropThrough cl ((x :: xs).drop op.length) with
        | some r2 => removeTagAll op cl r2
        | none => x :: removeTagAll op cl xs
      else x :: removeTagAll op cl xs := by
  show removeTagGo op cl (xs.length + 1) (x :: xs) = _
  simp only [removeTagGo]
  by_cases hcnd : op ≠ [] ∧ cl ≠ [] ∧ op.isPrefixOf (x :: xs)
  · rw [if_pos hcnd, if_pos hcnd]
    cases hdt : dropThrough cl ((x :: xs).drop op.length) with
    | some r2 =>
      have hlt := dropThrough_length hcnd.2.1 hdt
      simp only [List.length_drop, List.length_cons] at hlt
      exact removeTagGo_irrel op cl xs.length r2.length r2 (by omega)
        (le_refl _)
    | none => rfl
  · rw [if_neg hcnd, if_neg hcnd]
    rfl

@[simp]
theorem removeTagAll_nil (op cl : List Char) : removeTagAll op cl [] = [] :=
  rfl

def thinkOpenT : List Char := "<think>".data
def thinkCloseT : List Char := "</think>".data
def reasoningOpenT : List Char := "<reasoning>".data
def reasoningCloseT : List Char := "</reasoning>".data

/-- `_clean_think_blocks` at the character-list level. -/
def cleanThinkBlocksCL (l : List Char) : List Char :=
  pstripCL (removeTagAll reasoningOpenT reasoningCloseT
    (removeTagAll thinkOpenT thinkCloseT l))

/-- `_clean_think_blocks(text)` (lines 730-734): remove all
`<think>...</think>` spans, then all `<reasoning>...</reasoning>` spans
(both DOTALL non-greedy), then `text.strip()`. -/
def clean_think_blocks (s : String) : String :=
  String.mk (cleanThinkBlocksCL s.data)

/-! ### Data model -/

/-- A metadata value of a vector-store chunk (document id, owner id, source
path, element type, ...). -/
inductive MVal where
  | str : String → MVal
  | int : Int → MVal
deriving DecidableEq

/-- A langchain Document as the retriever returns it: page content plus a
metadata dictionary. -/
structure Doc where
  page_content : String
  metadata : List (String × MVal)
deriving DecidableEq

/-- dict.get on a metadata dictionary (first binding wins, None when the key
is absent). -/
def mget (k : String) : List (String × MVal) → Option MVal
  | [] => none
  | kv :: rest => if kv.1 = k then some kv.2 else mget k rest

/-- Metadata string value with Python's `.get(key, '')` default. -/
def mgetStr (k : String) (m : List (String × MVal)) : String :=
  match mget k m with
  | some (MVal.str s) => s
  | _ => ""

/-- One conversation exchange, `{"question", "answer", "timestamp"}`
(lines 553-557). -/
structure Turn where
  question : String
  answer : String
  timestamp : ℚ
deriving DecidableEq

/-- A `_verify_*` result dict: `score`, the boolean flag
(`is_relevant` / `is_faithful`, here `passed`), `explanation`. -/
structure VerifRes where
  score : ℚ
  passed : Bool
  explanation : String
deriving DecidableEq

/-- The `verification_result` dict assembled in `ask` (lines 453-457). -/
structure VerifDetails where
  context_relevance : VerifRes
  answer_faithfulness : VerifRes
  answer_relevance : VerifRes
deriving DecidableEq

/-! ### Conversation memory (lines 522-563) -/

/-- `_add_to_conversation_memory` (lines 551-563): append the new exchange,
keep only the last 50 when over the cap.  Persistence (`pickle` write) is the
list itself. -/
def add_to_conversation_memory (mem : List Turn) (q a : String) (now : ℚ) :
    List Turn :=
  let m := mem ++ [⟨q, a, now⟩]
  if 50 < m.length then m.drop (m.length - 50) else m

/-- `_build_memory_context` (lines 522-531): serialize the last 5 exchanges. -/
def build_memory_context (mem : List Turn) : String :=
  if mem = [] then ""
  else
    let recent := mem.drop (mem.length - 5)
    let entries := recent.enum.map fun ie =>
      "Échange " ++ toString (ie.1 + 1) ++ ":\nQuestion: " ++ ie.2.question ++
        "\nRéponse: " ++ ie.2.answer
    "=== HISTORIQUE DES CONVERSATIONS PRÉCÉDENTES ===\n" ++
      String.intercalate "\n\n" entries ++ "\n\n=== FIN DE L'HISTORIQUE ===\n\n"

/-! ### Prompt builders (exact f-string texts from the source) -/

/-- `_build_prompt` (lines 533-549). -/
def build_prompt (question full_context : String) : String :=
  "You are an AI assistant with access to textual and visual information from documents.\n" ++
  "Your mission is to answer the user's question based ONLY on the provided context and the history of previous conversations.\n" ++
  "\n" ++
  "IMPORTANT INSTRUCTIONS:\n" ++
  "1. Use previous conversation history to keep continuity and coherence.\n" ++
  "2. If the question refers to a past message, take that into account.\n" ++
  "3. ALWAYS respond in the language of the question.\n" ++
  "4. NEVER invent facts — only use what is present in the context or history.\n" ++
  "5. Do NOT mention 'context' or 'source' unless asked to.\n" ++
  "\n" ++
  full_context ++ "\n" ++
  "\n" ++
  "CURRENT QUESTION: " ++ question ++ "\n" ++
  "\n" ++
  "Respond concisely and clearly, as if speaking naturally to the user."

/-- The judge prompt of `_verify_context_relevance` (lines 568-581). -/
def context_relevance_prompt (question context : String) : String :=
  "\n" ++
  "            You are an expert in information retrieval systems. \n" ++
  "            Evaluate whether the provided context is helpful for answering the question.\n" ++
  "\n" ++
  "            Question: " ++ question ++ "\n" ++
  "            Context: " ++ context ++ "\n" ++
  "\n" ++
  "            Respond with a numerical score between 0 and 1:\n" ++
  "            - 0.0: Completely irrelevant\n" ++
  "            - 0.5: Moderate relevance \n" ++
  "            - 1.0: Highly relevant\n" ++
  "\n" ++
  "            Format: [SCORE: X.X] Explanation...\n" ++
  "            "

/-- The judge prompt of `_verify_answer_faithfulness` (lines 609-621). -/
def faithfulness_prompt (context answer : String) : String :=
  "\n" ++
  "            Evaluate whether the answer is accurate and based on the provided context.\n" ++
  "\n" ++
  "            Context: " ++ context ++ "\n" ++
  "            Answer: " ++ answer ++ "\n" ++
  "\n" ++
  "            Score from 0 to 1:\n" ++
  "            - 0.0: Complete hallucination\n" ++
  "            - 0.5: Mix of supported and unsupported information\n" ++
  "            - 1.0: Completely faithful\n" ++
  "\n" ++
  "            Format: [SCORE: X.X] Explanation...\n" ++
  "            "

/-- The judge prompt of `_verify_answer_relevance` (lines 649-661). -/
def relevance_prompt (question answer : String) : String :=
  "\n" ++
  "            Evaluate whether the answer effectively responds to the question.\n" ++
  "\n" ++
  "            Question: " ++ question ++ "\n" ++
  "            Answer: " ++ answer ++ "\n" ++
  "\n" ++
  "            Score from 0 to 1:\n" ++
  "            - 0.0: Completely off-topic\n" ++
  "            - 0.5: Partially addresses the question\n" ++
  "            - 1.0: Fully addresses the question\n" ++
  "\n" ++
  "            Format: [SCORE: X.X] Explanation...\n" ++
  "            "

/-- The correction prompt of `_suggest_improved_answer` (lines 697-718). -/
def improvement_prompt (question context answer : String)
    (issues : List String) : String :=
  "\n" ++
  "            As a scientific expert, correct the following answer based on the issues identified.\n" ++
  "\n" ++
  "            Your correction must:\n" ++
  "            1. Use ONLY information found in the provided context\n" ++
  "            2. Stay logically faithful (even if rephrased)\n" ++
  "            3. Directly answer the question\n" ++
  "            4. Avoid any hallucinations or invented facts\n" ++
  "\n" ++
  "            Question: " ++ question ++ "\n" ++
  "\n" ++
  "            Available context:\n" ++
  "            " ++ context ++ "\n" ++
  "\n" ++
  "            Original answer:\n" ++
  "            " ++ answer ++ "\n" ++
  "\n" ++
  "            Identified issues:\n" ++
  "            " ++ String.intercalate "; " issues ++ "\n" ++
  "\n" ++
  "            Write a corrected answer below (without mentioning the corrections or issues):\n" ++
  "            "

/-! ### Verification checks (lines 565-684)
The judge model (one ollama model, `self.verification_model`) is an oracle
`judge : String → Except String String` mapping the full prompt to the chat
output or to the exception message; each check catches its own exceptions and
falls back to the neutral result. -/

/-- `_verify_context_relevance` (lines 565-604). -/
def verify_context_relevance (judge : String → Except String String)
    (question context : String) : VerifRes :=
  match judge (context_relevance_prompt question context) with
  | Except.ok result =>
    let score := extractScore result
    ⟨score, decide ((0.5 : ℚ) ≤ score), pstrip result⟩
  | Except.error _ => ⟨0.5, true, "Erreur de vérification"⟩

/-- `_verify_answer_faithfulness` (lines 606-644). -/
def verify_answer_faithfulness (judge : String → Except String String)
    (context answer : String) : VerifRes :=
  match judge (faithfulness_prompt context answer) with
  | Except.ok result =>
    let score := extractScore result
    ⟨score, decide ((0.5 : ℚ) ≤ score), pstrip result⟩
  | Except.error _ => ⟨0.5, true, "Erreur de vérification"⟩

/-- `_verify_answer_relevance` (lines 646-684). -/
def verify_answer_relevance (judge : String → Except String String)
    (question answer : String) : VerifRes :=
  match judge (relevance_prompt question answer) with
  | Except.ok result =>
    let score := extractScore result
    ⟨score, decide ((0.5 : ℚ) ≤ score), pstrip result⟩
  | Except.error _ => ⟨0.5, true, "Erreur de vérification"⟩

/-- The weighted composite score computed in `ask` (lines 459-463). -/
def composite (ctx faith rel : ℚ) : ℚ :=
  ctx * 0.2 + faith * 0.4 + rel * 0.4

/-- The `issues` list of `_suggest_improved_answer` (lines 689-695). -/
def improvement_issues (v : VerifDetails) : List String :=
  (if v.context_relevance.score < 0.7 then
    ["Contexte peu pertinent: " ++ v.context_relevance.explanation] else []) ++
  (if v.answer_faithfulness.score < 0.7 then
    ["Réponse infidèle: " ++ v.answer_faithfulness.explanation] else []) ++
  (if v.answer_relevance.score < 0.7 then
    ["Réponse peu pertinente: " ++ v.answer_relevance.explanation] else [])

/-- `_suggest_improved_answer` (lines 686-728): call the generative model on
the correction prompt; on success return the cleaned output, and on any
exception return the original `answer` argument unchanged. -/
def suggest_improved_answer (improve : String → Except String String)
    (question context answer : String) (v : VerifDetails) : String :=
  match improve (improvement_prompt question context answer
      (improvement_issues v)) with
  | Except.ok raw => clean_think_blocks raw
  | Except.error _ => answer

/-! ### Filtered retrieval (lines 497-520) -/

/-- The per-document filter match of `_filtered_search`: every filter
key-value pair equals the chunk's metadata value (missing key = no match). -/
def docMatches (filters : List (String × MVal)) (d : Doc) : Bool :=
  filters.all fun kv => mget kv.1 d.metadata == some kv.2

/-- The collection loop of `_filtered_search` (lines 504-515): append
matching docs, break once `k` are collected. -/
def fsLoop (filters : List (String × MVal)) (k : Nat) :
    List Doc → List Doc → List Doc
  | [], acc => acc
  | d :: ds, acc =>
    if docMatches filters d then
      if k ≤ (acc ++ [d]).length then acc ++ [d]
      else fsLoop filters k ds (acc ++ [d])
    else fsLoop filters k ds acc

/-- `_filtered_search` (lines 497-520): over-fetch `k*3` candidates from the
ranked unfiltered similarity search, keep exact metadata matches, stop at
`k`, return at most `k`. -/
def filtered_search (simRanked : List Doc) (filters : List (String × MVal))
    (k : Nat) : List Doc :=
  (fsLoop filters k (simRanked.take (k * 3)) []).take k

/-! ### ask (lines 368-495)
External collaborators as oracles: `retrieverDocs` is what
`self.retriever.invoke(question)` returns, `simRanked` the ranking
`self.vectorstore.similarity_search(question, k)` draws its first `k` results
from, `judge` the verification model chat call, `gen` and `improve` the two
generation-model chat calls (lines 433 and 720, same configured model, one
oracle per call site), `now` the `time.time()` clock.  An `Except.error`
value is an exception raised by that model call. -/

structure AskOracles where
  retrieverDocs : List Doc
  simRanked : List Doc
  judge : String → Except String String
  gen : String → Except String String
  improve : String → Except String String
  now : ℚ

/-- The returned dict of `ask` with `return_metadata=True`; keys absent from
the Python dict on a branch (`verification_score` in the no-context and error
dicts) are `none`. -/
structure AskResult where
  answer : String
  verification_status : String
  verification_score : Option ℚ
  verification_details : Option VerifDetails
deriving DecidableEq

/-- `ask`'s observable outcome: the result dict, the conversation memory
after the call, and whether the generation / correction model calls
happened. -/
structure AskOutcome where
  result : AskResult
  memory : List Turn
  genCalled : Bool
  improveCalled : Bool
deriving DecidableEq

/-- The fixed fallback answer of the empty-retrieval branch (line 395). -/
def noContextAnswer : String :=
  "Aucune information pertinente trouvée dans les documents."

/-- The `search_filters` dict (lines 380-384): Python's `if self.user_id:` /
`if article_id:` are truthiness tests, so 0 adds no filter. -/
def ask_filters (userId articleId : Option Int) : List (String × MVal) :=
  (match userId with
   | some u => if u ≠ 0 then [("user_id", MVal.int u)] else []
   | none => []) ++
  (match articleId with
   | some a => if a ≠ 0 then [("article_id", MVal.int a)] else []
   | none => [])

/-- The retrieval step of `ask` (lines 387-391). -/
def ask_docs (o : AskOracles) (userId articleId : Option Int) : List Doc :=
  let fs := ask_filters userId articleId
  if fs = [] then o.retrieverDocs else filtered_search o.simRanked fs 5

/-- The `context_parts` entries contributed by one retrieved doc
(lines 403-411). -/
def contextPartsOf (d : Doc) : List String :=
  [d.page_content] ++
    (match mget "type" d.metadata with
     | some (MVal.str "image") =>
       ["[INFORMATION VISUELLE] " ++ mgetStr "text_content" d.metadata]
     | some (MVal.str "figure") =>
       ["[FIGURE] " ++ mgetStr "caption" d.metadata ++ " - " ++
         mgetStr "text_content" d.metadata]
     | some (MVal.str "table") =>
       ["[TABLE] " ++ mgetStr "caption" d.metadata ++ " - " ++
         mgetStr "text_content" d.metadata]
     | _ => [])

/-- The joined multimodal context (line 413). -/
def buildContext (docs : List Doc) : String :=
  String.intercalate "\n\n" (docs.map contextPartsOf).flatten

/-- The metadata-branch context check with one supplementary broad search
(lines 416-424): verify context relevance; when the score is ≤ 0.5, append
the page contents of up-to-5 similarity-search docs not already retrieved and
re-verify once. -/
def supplementContext (o : AskOracles) (question : String) (docs : List Doc) :
    String × VerifRes :=
  let ctx0 := buildContext docs
  let cv := verify_context_relevance o.judge question ctx0
  if cv.score ≤ 0.5 then
    let additional_docs := o.simRanked.take 5
    let additional_context := String.intercalate "\n\n"
      ((additional_docs.filter (fun d => !(docs.contains d))).map
        Doc.page_content)
    if additional_context ≠ "" then
      let ctx := ctx0 ++ "\n\n" ++ additional_context
      (ctx, verify_context_relevance o.judge question ctx)
    else (ctx0, cv)
  else (ctx0, cv)

/-- `ask` (lines 368-495).  `userId` is `self.user_id`, the rest are the
method's arguments; the conversation memory is threaded explicitly. -/
def ask (o : AskOracles) (userId articleId : Option Int) (mem : List Turn)
    (question : String) (return_metadata : Bool)
    (validation_threshold : ℚ) : AskOutcome :=
  let docs := ask_docs o userId articleId
  if docs = [] then
    { result := ⟨noContextAnswer, "no_context", none, none⟩
      memory := add_to_conversation_memory mem question noContextAnswer o.now
      genCalled := false, improveCalled := false }
  else
    let cc : String × VerifRes :=
      if return_metadata then supplementContext o question docs
      else (buildContext docs, ⟨0.5, true, ""⟩)
    let context := cc.1
    let context_verification := cc.2
    let memory_context := build_memory_context mem
    let full_context := memory_context ++ "\n=== DOCUMENT CONTEXT ===\n" ++
      context ++ "\n=== END OF CONTEXT ==="
    let prompt := build_prompt question full_context
    match o.gen prompt with
    | Except.error e =>
      { result := ⟨"❌ Erreur génération réponse: " ++ e, "error", none, none⟩
        memory := mem, genCalled := true, improveCalled := false }
    | Except.ok raw =>
      let answer := clean_think_blocks raw
      if return_metadata then
        let faithfulness_verification :=
          verify_answer_faithfulness o.judge context answer
        let relevance_verification :=
          verify_answer_relevance o.judge question answer
        let verification_result : VerifDetails :=
          ⟨context_verification, faithfulness_verification,
            relevance_verification⟩
        let final_score := composite context_verification.score
          faithfulness_verification.score relevance_verification.score
        if validation_threshold ≤ final_score then
          { result := ⟨answer, "validated", some final_score,
              some verification_result⟩
            memory := add_to_conversation_memory mem question answer o.now
            genCalled := true, improveCalled := false }
        else
          let improved_answer := suggest_improved_answer o.improve question
            context answer verification_result
          if improved_answer ≠ "" then
            { result := ⟨improved_answer, "corrected", some final_score,
                some verification_result⟩
              memory := add_to_conversation_memory mem question
                improved_answer o.now
              genCalled := true, improveCalled := true }
          else
            { result := ⟨answer, "needs_improvement", some final_score,
                some verification_result⟩
              memory := add_to_conversation_memory mem question answer o.now
              genCalled := true, improveCalled := true }
      else
        { result := ⟨answer, "generated", some 0.5, none⟩
          memory := add_to_conversation_memory mem question answer o.now
          genCalled := true, improveCalled := false }

/-! ### Recommendations (lines 736-922)
`get_recommendations`, `_lexical_search`, `_search_arxiv` and
`_rerank_results`.  Oracles: the vector ranking
`similarity_search_by_vector` draws from, the `Article.query.get` lookup,
the lexical index, the parsed ArXiv feed entries, the cosine-similarity
value for a snippet, and the current calendar year. -/

/-- A database article as `get_recommendations` consumes it: its title and
its serialized `to_dict()` payload (opaque here). -/
structure ArticleRec where
  title : String
  payload : String
deriving DecidableEq

/-- One recommendation dict.  Keys a source never sets (`filename` for ArXiv
results, `year` for local ones, ...) are `none`. -/
structure Reco where
  title : String
  snippet : String
  source : String
  relevance : String
  filename : Option String
  article : Option String
  score : Option Nat
  url : Option String
  pdf_url : Option String
  year : Option Int
deriving DecidableEq

/-- One record of the lexical index (`_index_document_for_lexical_search`,
lines 345-366): full concatenated content plus the ordered chunk texts,
keyed by the document's filename. -/
structure LexEntry where
  content : String
  chunks : List String
deriving DecidableEq

/-- A parsed ArXiv feed entry as the `_search_arxiv` result loop reads it
(lines 840-859); `arxivId` stands for `entry.id.split('/')[-1]`. -/
structure ArxivEntry where
  title : String
  summary : String
  link : String
  arxivId : String
  year : Int
deriving DecidableEq

structure RecOracles where
  chromaRanked : List Doc
  articleOf : Int → Option ArticleRec
  lexIndex : List (String × LexEntry)
  arxivEntries : List ArxivEntry
  sem : String → ℚ
  nowYear : Int

/-- Python `snippet[:200] + "..."`. -/
def snippet200 (s : String) : String := pyTake s 200 ++ "..."

/-- The Python truthiness test `if current_filename and filename ==
current_filename` guarding the self-exclusion skips (lines 748 and 768). -/
def pyExcludes (current_filename : Option String) (f : String) : Bool :=
  match current_filename with
  | some s => !s.isEmpty && f == s
  | none => false

/-- The keyword-overlap score of `_lexical_search` (line 791 and 798): how
many of the query's lowercased words occur in the lowercased text. -/
def keywordScore (keywords : List String) (text : String) : Nat :=
  keywords.countP fun kw => containsSub kw.data (pyLower text).data

/-- The best-chunk selection loop of `_lexical_search` (lines 794-801):
first chunk of strictly maximal keyword score, starting from ("", 0). -/
def bestChunk (keywords : List String) (chunks : List String) :
    String × Nat :=
  chunks.foldl
    (fun best chunk =>
      let cs := keywordScore keywords chunk
      if best.2 < cs then (chunk, cs) else best)
    ("", 0)

/-- `_lexical_search(query, n)` (lines 784-813): score every indexed
document, keep positive scores, sort by score descending (Python's stable
sort) and return the first `n`. -/
def lexical_search (idx : List (String × LexEntry)) (query : String)
    (n : Nat) : List Reco :=
  let keywords := pysplit (pyLower query)
  let results := idx.filterMap fun fe =>
    let score := keywordScore keywords fe.2.content
    if 0 < score then
      some { title := "Document: " ++ fe.1
             snippet := snippet200 (bestChunk keywords fe.2.chunks).1
             source := "local"
             relevance := "lexical: " ++ toString score
             filename := some fe.1
             article := none, score := some score
             url := none, pdf_url := none, year := none }
    else none
  (results.insertionSort fun a b => b.score.getD 0 ≤ a.score.getD 0).take n

/-- The result loop of `_search_arxiv` (lines 840-859): walk the feed
entries, keep those published in 2024 or later, stop once `n` are collected.
The keyword-extraction model call and the HTTP query only shape which
entries the feed holds, i.e. the oracle. -/
def search_arxiv (entries : List ArxivEntry) (n : Nat) : List Reco :=
  ((entries.filter fun e => 2024 ≤ e.year).take n).map fun e =>
    { title := e.title
      snippet := String.mk ((pyTake e.summary 200).data.map
        fun c => if c = '\n' then ' ' else c) ++ "..."
      source := "arxiv"
      relevance := "récent (" ++ toString e.year ++ ")"
      filename := none, article := none, score := none
      url := some e.link
      pdf_url := some ("https://arxiv.org/pdf/" ++ e.arxivId ++ ".pdf")
      year := some e.year }

/-- The deduplication key of `_rerank_results` (lines 877-882): local
results with a filename are keyed `local:{filename}`, any result with a
title is keyed `{source}:{title}`. -/
def identifierOf (r : Reco) : Option String :=
  if r.source = "local" ∧ r.filename.isSome then
    some ("local:" ++ r.filename.getD "")
  else some (r.source ++ ":" ++ r.title)

/-- The duplicate-elimination loop of `_rerank_results` (lines 873-886):
keep a result when its identifier is defined and unseen. -/
def dedupLoop : List Reco → List String → List Reco
  | [], _ => []
  | r :: rs, seen =>
    match identifierOf r with
    | some i => if i ∈ seen then dedupLoop rs seen
                else r :: dedupLoop rs (i :: seen)
    | none => dedupLoop rs seen

/-- The base score of `_rerank_results` (lines 871, 893-897):
`SOURCE_WEIGHTS.get(source, 0.5)` with local 1.0 and arxiv 0.6, plus the
recency bonus for ArXiv results from 2024 on. -/
def baseScore (nowYear : Int) (r : Reco) : ℚ :=
  let b : ℚ := if r.source = "local" then 1
               else if r.source = "arxiv" then 0.6 else 0.5
  if r.source = "arxiv" ∧ 2024 ≤ r.year.getD 0 then
    b + (if r.year.getD 0 = nowYear then 1 else 0.8)
  else b

/-- The semantic bonus of `_rerank_results` (lines 899-911): twice the
cosine similarity between the query embedding and the snippet embedding,
0 for an empty snippet. -/
def semanticScore (o : RecOracles) (r : Reco) : ℚ :=
  if r.snippet ≠ "" then o.sem r.snippet * 2 else 0

/-- `final_score = base_score + semantic_score` (line 913). -/
def recoScore (o : RecOracles) (r : Reco) : ℚ :=
  baseScore o.nowYear r + semanticScore o r

/-- `_rerank_results` (lines 868-922): deduplicate, score every unique
result, sort by score descending — Python's `list.sort(key=..,
reverse=True)` is stable, i.e. insertion sort with ties kept in place. -/
def rerank_results (o : RecOracles) (results : List Reco) : List Reco :=
  (dedupLoop results []).insertionSort fun a b =>
    recoScore o b ≤ recoScore o a

/-- The vector-search candidate loop of `get_recommendations`
(lines 741-763): walk the first `n+5` ranked chunks, skip those without a
source path and those whose basename is the excluded filename, attach the
database article when the chunk carries an `article_id`. -/
def chromaRecos (o : RecOracles) (current_filename : Option String)
    (n : Nat) : List Reco :=
  (o.chromaRanked.take (n + 5)).filterMap fun d =>
    match mget "source" d.metadata with
    | some (MVal.str src) =>
      let filename := basename src
      if pyExcludes current_filename filename then none
      else
        let article := match mget "article_id" d.metadata with
          | some (MVal.int i) => o.articleOf i
          | _ => none
        some { title := match article with
                 | some a => a.title
                 | none => "Document: " ++ filename
               snippet := snippet200 d.page_content
               source := "local"
               relevance := "élevée"
               filename := some filename
               article := article.map ArticleRec.payload
               score := none, url := none, pdf_url := none, year := none }
    | _ => none

/-- The lexical merge loop of `get_recommendations` (lines 766-771): skip
the excluded filename, then skip filenames already present among the
accumulated results. -/
def mergeLexical (current_filename : Option String) (acc : List Reco) :
    List Reco → List Reco
  | [] => acc
  | r :: rs =>
    match r.filename with
    | some f =>
      if pyExcludes current_filename f then mergeLexical current_filename acc rs
      else if acc.any fun r2 => r2.filename == some f then
        mergeLexical current_filename acc rs
      else mergeLexical current_filename (acc ++ [r]) rs
    | none => mergeLexical current_filename acc rs

/-- `get_recommendations(text, n, current_filename)` (lines 736-782). -/
def get_recommendations (o : RecOracles) (text : String) (n : Nat)
    (current_filename : Option String) : List Reco :=
  let results := chromaRecos o current_filename n
  let lexical_results := lexical_search o.lexIndex (pyTake text 1000) n
  let results := mergeLexical current_filename results lexical_results
  let results := if results.length < n then
      results ++ search_arxiv o.arxivEntries (n - results.length)
    else results
  (rerank_results o results).take n

/-! ### Supporting lemmas -/

theorem extractScore_nonneg (s : String) : 0 ≤ extractScore s := by
  unfold extractScore
  cases searchScore s.data with
  | none => norm_num
  | some v => exact le_max_left 0 _

theorem extractScore_le_one (s : String) : extractScore s ≤ 1 := by
  unfold extractScore
  cases searchScore s.data with
  | none => norm_num
  | some v => exact max_le (by norm_num) (min_le_right v 1)

theorem extractScore_default {s : String} (h : searchScore s.data = none) :
    extractScore s = 0.5 := by
  unfold extractScore
  rw [h]

theorem fsLoop_eq (filters : List (String × MVal)) (k : Nat) :
    ∀ (ds acc : List Doc), acc.length < k →
      fsLoop filters k ds acc =
        acc ++ (ds.filter (docMatches filters)).take (k - acc.length) := by
  intro ds
  induction ds with
  | nil => intro acc _; simp [fsLoop]
  | cons d ds ih =>
    intro acc h
    by_cases hm : docMatches filters d
    · simp only [fsLoop, hm, if_true]
      by_cases hk : k ≤ (acc ++ [d]).length
      · have h1 : k - acc.length = 1 := by
          simp only [List.length_append, List.length_singleton] at hk
          omega
        rw [if_pos hk, h1]
        simp [List.filter_cons, hm]
      · have h2 : (acc ++ [d]).length < k := by omega
        rw [if_neg hk, ih _ h2]
        have h3 : k - acc.length = (k - (acc ++ [d]).length) + 1 := by
          simp only [List.length_append, List.length_singleton] at h2 ⊢
          omega
        rw [h3]
        simp [List.filter_cons, hm, List.take_succ_cons]
    · simp only [fsLoop, hm, if_false, Bool.false_eq_true]
      rw [ih _ h]
      simp [List.filter_cons, hm]

/-- `_add_to_conversation_memory` always produces the last-50 window of the
appended list (the guard only skips a vacuous drop). -/
theorem add_eq_window (mem : List Turn) (q a : String) (now : ℚ) :
    add_to_conversation_memory mem q a now =
      (mem ++ [(⟨q, a, now⟩ : Turn)]).drop
        ((mem ++ [(⟨q, a, now⟩ : Turn)]).length - 50) := by
  unfold add_to_conversation_memory
  by_cases h : 50 < (mem ++ [(⟨q, a, now⟩ : Turn)]).length
  · rw [if_pos h]
  · rw [if_neg h]
    have h0 : (mem ++ [(⟨q, a, now⟩ : Turn)]).length - 50 = 0 := by omega
    rw [h0, List.drop_zero]

/-- Pre-trimming a list to its last-50 window does not change the last-50
window of any extension. -/
theorem drop_window_absorb (k : Nat) (a y : List Turn) :
    ((a.drop (a.length - k)) ++ y).drop
        (((a.drop (a.length - k)) ++ y).length - k) =
      (a ++ y).drop ((a ++ y).length - k) := by
  by_cases hk : a.length ≤ k
  · have h0 : a.length - k = 0 := by omega
    rw [h0, List.drop_zero]
  · have hlen : (a.drop (a.length - k)).length = k := by
      rw [List.length_drop]; omega
    rw [List.drop_append_eq_append_drop, List.drop_append_eq_append_drop,
      List.drop_drop]
    congr 1
    · congr 1
      simp only [List.length_append, hlen, List.length_drop]
      omega
    · congr 1
      simp only [List.length_append, hlen, List.length_drop]
      omega

/-- One sequential append of `ask`'s memory update. -/
def stepTurn (mem : List Turn) (t : Turn) : List Turn :=
  add_to_conversation_memory mem t.question t.answer t.timestamp

theorem foldl_stepTurn (ts : List Turn) :
    ∀ mem : List Turn, mem.length ≤ 50 →
      ts.foldl stepTurn mem = (mem ++ ts).drop ((mem ++ ts).length - 50) := by
  induction ts with
  | nil =>
    intro mem h
    simp only [List.foldl_nil, List.append_nil]
    have h0 : mem.length - 50 = 0 := by omega
    rw [h0, List.drop_zero]
  | cons t ts ih =>
    intro mem h
    rw [List.foldl_cons]
    have hstep : stepTurn mem t =
        (mem ++ [t]).drop ((mem ++ [t]).length - 50) :=
      add_eq_window mem t.question t.answer t.timestamp
    have hlen : (stepTurn mem t).length ≤ 50 := by
      rw [hstep, List.length_drop]; omega
    rw [ih (stepTurn mem t) hlen, hstep, drop_window_absorb 50 (mem ++ [t]) ts]
    simp [List.append_assoc]

/-- Filtering on a score level commutes with one ordered insertion: the
element lands strictly after everything of larger score, so the elements at
its own score keep their order (insert-after-equals is what makes the sort
stable). -/
theorem filter_orderedInsert {α : Type} (f : α → ℚ) (q : ℚ) (x : α) :
    ∀ L : List α,
      (L.orderedInsert (fun u v => f v ≤ f u) x).filter (fun y => f y == q) =
        if f x == q then x :: L.filter (fun y => f y == q)
        else L.filter (fun y => f y == q) := by
  intro L
  induction L with
  | nil => simp [List.orderedInsert, List.filter_cons]
  | cons b L ih =>
    simp only [List.orderedInsert]
    by_cases hr : f b ≤ f x
    · rw [if_pos hr]
      simp [List.filter_cons]
    · rw [if_neg hr]
      rw [List.filter_cons, List.filter_cons, ih]
      by_cases hq : (f x == q) = true
      · have hx : f x = q := by simpa using hq
        have hbq : (f b == q) = false := by
          simp only [beq_eq_false_iff_ne, ne_eq]
          intro hb
          exact hr (le_of_eq (hb.trans hx.symm))
        simp [hq, hbq, List.filter_cons]
      · simp [hq, List.filter_cons]

/-- The defining one-step equation of `dropThrough` on a cons cell. -/
theorem dropThrough_cons (cl : List Char) (x : Char) (xs : List Char) :
    dropThrough cl (x :: xs) =
      if cl.isPrefixOf (x :: xs) then some ((x :: xs).drop cl.length)
      else dropThrough cl xs := rfl

/-- When the designated close tag is the first occurrence after the span
body, `dropThrough` lands exactly after it. -/
theorem dropThrough_first (cl : List Char) (hcl : cl ≠ []) :
    ∀ (b c : List Char),
      (∀ j < b.length, cl.isPrefixOf ((b ++ (cl ++ c)).drop j) = false) →
      dropThrough cl (b ++ (cl ++ c)) = some c := by
  intro b
  induction b with
  | nil =>
    intro c _
    obtain ⟨d, cl', rfl⟩ := List.exists_cons_of_ne_nil hcl
    have hpre : (d :: cl').isPrefixOf ((d :: cl') ++ c) = true := by
      rw [List.isPrefixOf_iff_prefix]
      exact List.prefix_append _ _
    simp only [List.nil_append, List.cons_append] at hpre ⊢
    rw [dropThrough_cons, hpre]
    simp [List.drop_left]
  | cons x b ih =>
    intro c h
    have h0 := h 0 (by simp)
    simp only [List.cons_append, List.drop_zero] at h0
    rw [List.cons_append, dropThrough_cons, h0]
    simp only [Bool.false_eq_true, if_false]
    exact ih c fun j hj => by
      have := h (j + 1) (by simp only [List.length_cons]; omega)
      simpa using this

/-- A scan pass walks untouched over a prefix in which the open tag never
occurs. -/
theorem removeTagAll_append (op cl : List Char) :
    ∀ (a rest : List Char),
      (∀ i < a.length, op.isPrefixOf ((a ++ rest).drop i) = false) →
      removeTagAll op cl (a ++ rest) = a ++ removeTagAll op cl rest := by
  intro a
  induction a with
  | nil => intro rest _; simp
  | cons x a ih =>
    intro rest h
    have h0 := h 0 (by simp)
    simp only [List.cons_append, List.drop_zero] at h0
    rw [List.cons_append, removeTagAll_cons]
    rw [if_neg (by simp [h0])]
    rw [ih rest fun i hi => by
      have := h (i + 1) (by simp only [List.length_cons]; omega)
      simpa using this]
    simp

/-- A scan pass deletes a whole `op ... cl` span whose close tag is the
first one after the body, and continues after it. -/
theorem removeTagAll_span (op cl : List Char) (hop : op ≠ []) (hcl : cl ≠ [])
    (b c : List Char)
    (hdrop : dropThrough cl (b ++ (cl ++ c)) = some c) :
    removeTagAll op cl (op ++ (b ++ (cl ++ c))) = removeTagAll op cl c := by
  obtain ⟨d, op', rfl⟩ := List.exists_cons_of_ne_nil hop
  have hpre : (d :: op').isPrefixOf ((d :: op') ++ (b ++ (cl ++ c))) = true := by
    rw [List.isPrefixOf_iff_prefix]
    exact List.prefix_append _ _
  have hdl : ((d :: op') ++ (b ++ (cl ++ c))).drop (d :: op').length =
      b ++ (cl ++ c) := List.drop_left _ _
  simp only [List.cons_append] at hpre hdl ⊢
  rw [removeTagAll_cons,
    if_pos (by simp only [hpre]; exact ⟨by simp, hcl, trivial⟩)]
  rw [hdl, hdrop]

/-- A scan pass is the identity on text in which the open tag never
occurs. -/
theorem removeTagAll_id (op cl : List Char) :
    ∀ l : List Char,
      (∀ i < l.length, op.isPrefixOf (l.drop i) = false) →
      removeTagAll op cl l = l := by
  intro l
  induction l with
  | nil => intro _; rfl
  | cons x xs ih =>
    intro h
    have h0 := h 0 (by simp)
    simp only [List.drop_zero] at h0
    rw [removeTagAll_cons, if_neg (by simp [h0])]
    rw [ih fun i hi => by
      have := h (i + 1) (by simp; omega)
      simpa using this]

/-- Stability of the modelled Python sort: the sublist of elements at any
given score is unchanged by sorting. -/
theorem filter_insertionSort {α : Type} (f : α → ℚ) (q : ℚ) :
    ∀ L : List α,
      (L.insertionSort (fun u v => f v ≤ f u)).filter (fun y => f y == q) =
        L.filter (fun y => f y == q) := by
  intro L
  induction L with
  | nil => rfl
  | cons a L ih =>
    simp only [List.insertionSort]
    rw [filter_orderedInsert f q a, ih, List.filter_cons]

theorem dedupLoop_sublist : ∀ (rs : List Reco) (seen : List String),
    (dedupLoop rs seen).Sublist rs := by
  intro rs
  induction rs with
  | nil => intro seen; simp [dedupLoop]
  | cons r rs ih =>
    intro seen
    simp only [dedupLoop]
    cases identifierOf r with
    | none => exact (ih seen).cons r
    | some i =>
      dsimp only
      by_cases hmem : i ∈ seen
      · rw [if_pos hmem]
        exact (ih seen).cons r
      · rw [if_neg hmem]
        exact (ih (i :: seen)).cons₂ r

theorem dedupLoop_nodup : ∀ (rs : List Reco) (seen : List String),
    ((dedupLoop rs seen).filterMap identifierOf).Nodup ∧
    ∀ s ∈ (dedupLoop rs seen).filterMap identifierOf, s ∉ seen := by
  intro rs
  induction rs with
  | nil => intro seen; simp [dedupLoop]
  | cons r rs ih =>
    intro seen
    simp only [dedupLoop]
    cases hid : identifierOf r with
    | none => exact ih seen
    | some i =>
      dsimp only
      by_cases hmem : i ∈ seen
      · rw [if_pos hmem]
        exact ih seen
      · rw [if_neg hmem]
        simp only [List.filterMap_cons, hid]
        constructor
        · rw [List.nodup_cons]
          refine ⟨fun hin => ?_, (ih (i :: seen)).1⟩
          exact (ih (i :: seen)).2 i hin (List.mem_cons_self i seen)
        · intro s hs
          rcases List.mem_cons.mp hs with rfl | hs'
          · exact hmem
          · exact fun hmem' =>
              (ih (i :: seen)).2 s hs' (List.mem_cons_of_mem i hmem')

/-- Every vector-search candidate surviving the chroma loop carries a
filename that the exclusion test rejected. -/
theorem chromaRecos_filename (o : RecOracles) (cf : Option String) (n : Nat) :
    ∀ r ∈ chromaRecos o cf n,
      ∃ f, r.filename = some f ∧ pyExcludes cf f = false := by
  intro r hr
  unfold chromaRecos at hr
  rw [List.mem_filterMap] at hr
  obtain ⟨d, _, hg⟩ := hr
  cases hsrc : mget "source" d.metadata with
  | none => rw [hsrc] at hg; simp at hg
  | some v =>
    cases v with
    | int k => rw [hsrc] at hg; simp at hg
    | str src =>
      rw [hsrc] at hg
      simp only at hg
      by_cases hex : pyExcludes cf (basename src) = true
      · rw [if_pos hex] at hg
        simp at hg
      · rw [if_neg hex] at hg
        have hr2 := Option.some.inj hg
        refine ⟨basename src, ?_, by simpa using hex⟩
        rw [← hr2]

/-- Everything the lexical merge loop adds on top of `acc` passed the
exclusion test for its filename. -/
theorem mergeLexical_forall (P : Reco → Prop) :
    ∀ (lex : List Reco) (cf : Option String) (acc : List Reco),
      (∀ r ∈ acc, P r) →
      (∀ r ∈ lex, ∀ f, r.filename = some f → pyExcludes cf f = false → P r) →
      ∀ r ∈ mergeLexical cf acc lex, P r := by
  intro lex
  induction lex with
  | nil =>
    intro cf acc hacc _ r hr
    exact hacc r hr
  | cons x lex ih =>
    intro cf acc hacc hlex r hr
    simp only [mergeLexical] at hr
    cases hfn : x.filename with
    | none =>
      rw [hfn] at hr
      exact ih cf acc hacc (fun r' hr' f h1 h2 =>
        hlex r' (List.mem_cons_of_mem x hr') f h1 h2) r hr
    | some f =>
      rw [hfn] at hr
      dsimp only at hr
      by_cases hex : pyExcludes cf f = true
      · rw [if_pos hex] at hr
        exact ih cf acc hacc (fun r' hr' f' h1 h2 =>
          hlex r' (List.mem_cons_of_mem x hr') f' h1 h2) r hr
      · rw [if_neg hex] at hr
        by_cases hdup : (acc.any fun r2 => r2.filename == some f) = true
        · rw [if_pos hdup] at hr
          exact ih cf acc hacc (fun r' hr' f' h1 h2 =>
            hlex r' (List.mem_cons_of_mem x hr') f' h1 h2) r hr
        · rw [if_neg hdup] at hr
          refine ih cf (acc ++ [x]) ?_ (fun r' hr' f' h1 h2 =>
            hlex r' (List.mem_cons_of_mem x hr') f' h1 h2) r hr
          intro r' hr'
          rcases List.mem_append.mp hr' with h | h
          · exact hacc r' h
          · rw [List.mem_singleton.mp h]
            exact hlex x (List.mem_cons_self x lex) f hfn
              (by simpa using hex)

/-- ArXiv recommendations never carry a filename. -/
theorem search_arxiv_filename (entries : List ArxivEntry) (m : Nat) :
    ∀ r ∈ search_arxiv entries m, r.filename = none := by
  intro r hr
  unfold search_arxiv at hr
  rw [List.mem_map] at hr
  obtain ⟨e, _, he⟩ := hr
  rw [← he]

/-! ### The claims -/

/-- C2: if retrieval returns no chunks, `ask` returns the fixed fallback
answer with verification_status "no_context", and neither the generation nor
the correction call of the generative model happens. -/
theorem C2_empty_retrieval_no_context (o : AskOracles)
    (userId articleId : Option Int) (mem : List Turn) (question : String)
    (return_metadata : Bool) (thr : ℚ)
    (h : ask_docs o userId articleId = []) :
    (ask o userId articleId mem question return_metadata thr).result.answer =
        noContextAnswer ∧
    (ask o userId articleId mem question return_metadata
        thr).result.verification_status = "no_context" ∧
    (ask o userId articleId mem question return_metadata thr).genCalled =
        false ∧
    (ask o userId articleId mem question return_metadata thr).improveCalled =
        false := by
  unfold ask
  rw [h]
  simp

/-- Witness for C2 at a concrete oracle with an empty store. -/
theorem C2_witness :
    (ask ⟨[], [], fun _ => Except.error "x", fun _ => Except.ok "a",
        fun _ => Except.ok "a", 0⟩ none none [] "q" true 0.7).result.answer =
      noContextAnswer ∧
    (ask ⟨[], [], fun _ => Except.error "x", fun _ => Except.ok "a",
        fun _ => Except.ok "a", 0⟩ none none [] "q" true
        0.7).result.verification_status = "no_context" ∧
    (ask ⟨[], [], fun _ => Except.error "x", fun _ => Except.ok "a",
        fun _ => Except.ok "a", 0⟩ none none [] "q" true 0.7).genCalled =
      false ∧
    (ask ⟨[], [], fun _ => Except.error "x", fun _ => Except.ok "a",
        fun _ => Except.ok "a", 0⟩ none none [] "q" true 0.7).improveCalled =
      false :=
  C2_empty_retrieval_no_context _ none none [] "q" true 0.7 (by decide)

/-- C7: when the generative model call raises, `ask` returns
verification_status "error" with the exception reason in the answer, and the
conversation memory is exactly what it was before the call. -/
theorem C7_generation_error_memory_untouched (o : AskOracles)
    (userId articleId : Option Int) (mem : List Turn) (question : String)
    (return_metadata : Bool) (thr : ℚ) (e : String)
    (hne : ask_docs o userId articleId ≠ [])
    (hgen : ∀ p, o.gen p = Except.error e) :
    (ask o userId articleId mem question return_metadata
        thr).result.verification_status = "error" ∧
    (ask o userId articleId mem question return_metadata thr).result.answer =
        "❌ Erreur génération réponse: " ++ e ∧
    (ask o userId articleId mem question return_metadata thr).memory =
        mem := by
  unfold ask
  rw [if_neg hne]
  simp only [hgen]
  simp

/-- Witness for C7 at a concrete failing generator. -/
theorem C7_witness :
    (ask ⟨[⟨"c", []⟩], [], fun _ => Except.ok "[SCORE: 0.9] ok",
        fun _ => Except.error "timeout", fun _ => Except.ok "a", 0⟩ none none
        [⟨"q0", "a0", 0⟩] "q" true 0.7).result.verification_status =
      "error" ∧
    (ask ⟨[⟨"c", []⟩], [], fun _ => Except.ok "[SCORE: 0.9] ok",
        fun _ => Except.error "timeout", fun _ => Except.ok "a", 0⟩ none none
        [⟨"q0", "a0", 0⟩] "q" true 0.7).result.answer =
      "❌ Erreur génération réponse: " ++ "timeout" ∧
    (ask ⟨[⟨"c", []⟩], [], fun _ => Except.ok "[SCORE: 0.9] ok",
        fun _ => Except.error "timeout", fun _ => Except.ok "a", 0⟩ none none
        [⟨"q0", "a0", 0⟩] "q" true 0.7).memory = [⟨"q0", "a0", 0⟩] :=
  C7_generation_error_memory_untouched _ none none [⟨"q0", "a0", 0⟩] "q" true
    0.7 "timeout" (by decide) (fun _ => rfl)

/-- The oracle of the C1 failing input: retrieval succeeds, every judge call
scores 0.6, generation produces the draft answer, and the correction-pass
model call raises. -/
def C1oracle : AskOracles :=
  { retrieverDocs := [⟨"chunk text", []⟩]
    simRanked := []
    judge := fun _ => Except.ok "[SCORE: 0.6] ok"
    gen := fun _ => Except.ok "draft"
    improve := fun _ => Except.error "model down"
    now := 0 }

/-- C1 (code bug): with return_metadata, composite score 0.6 < threshold 0.7
and a correction pass that raises, `ask` does keep the original draft answer
— but labels it verification_status "corrected", not "needs_improvement":
`_suggest_improved_answer`'s except-branch returns the original answer,
which is truthy, so the `if improved_answer:` guard in `ask` (lines 470-472)
treats the failed correction as a successful one. -/
theorem C1_correction_failure_mislabeled :
    (ask C1oracle none none [] "Q" true 0.7).result.answer = "draft" ∧
    (ask C1oracle none none [] "Q" true 0.7).result.verification_status =
      "corrected" := by
  constructor <;> decide

/-- C3: sequential appends through `_add_to_conversation_memory` keep the
memory at ≤ 50 entries, and once more than 50 turns have been appended
exactly the 50 most recent remain, in original relative order. -/
theorem C3_memory_fifo_cap (ts : List Turn) :
    (ts.foldl stepTurn []).length ≤ 50 ∧
    (50 < ts.length → ts.foldl stepTurn [] = ts.drop (ts.length - 50)) := by
  have h := foldl_stepTurn ts [] (by simp)
  simp only [List.nil_append] at h
  constructor
  · rw [h, List.length_drop]; omega
  · intro _; exact h

/-- Witness for C3: 51 sequential appends keep exactly the last 50. -/
theorem C3_witness :
    50 < (List.replicate 51 (⟨"q", "a", 0⟩ : Turn)).length ∧
    (List.replicate 51 (⟨"q", "a", 0⟩ : Turn)).foldl stepTurn [] =
      (List.replicate 51 (⟨"q", "a", 0⟩ : Turn)).drop
        ((List.replicate 51 (⟨"q", "a", 0⟩ : Turn)).length - 50) :=
  ⟨by decide,
    (C3_memory_fifo_cap (List.replicate 51 ⟨"q", "a", 0⟩)).2 (by decide)⟩

/-- C4: the composite verification score of `ask` is
0.2·context_relevance + 0.4·faithfulness + 0.4·relevance, and it lies in
[0,1] whenever the three component scores do. -/
theorem C4_composite_score (a b c : ℚ) :
    composite a b c = 0.2 * a + 0.4 * b + 0.4 * c ∧
    (0 ≤ a → a ≤ 1 → 0 ≤ b → b ≤ 1 → 0 ≤ c → c ≤ 1 →
      0 ≤ composite a b c ∧ composite a b c ≤ 1) := by
  constructor
  · unfold composite; ring
  · intro ha0 ha1 hb0 hb1 hc0 hc1
    unfold composite
    constructor <;> nlinarith

/-- Witness for C4 at component scores (1, 1/2, 0). -/
theorem C4_witness :
    composite 1 0.5 0 = 0.2 * 1 + 0.4 * 0.5 + 0.4 * 0 ∧
    (0 ≤ composite 1 0.5 0 ∧ composite 1 0.5 0 ≤ 1) :=
  ⟨(C4_composite_score 1 0.5 0).1,
    (C4_composite_score 1 0.5 0).2 (by norm_num) (by norm_num) (by norm_num)
      (by norm_num) (by norm_num) (by norm_num)⟩

/-- C5: for any judge output, the context-relevance and faithfulness checks
return a score in [0,1] whose passed flag (is_relevant / is_faithful) is
score ≥ 0.5, and when the output holds no parsable [SCORE: x.x] pattern the
score defaults to 0.5 and the flag is true; the parse failure never escapes
the check. -/
theorem C5_judge_score_defaults (judge : String → Except String String)
    (q ctx ans outC outF : String)
    (hC : judge (context_relevance_prompt q ctx) = Except.ok outC)
    (hF : judge (faithfulness_prompt ctx ans) = Except.ok outF) :
    (0 ≤ (verify_context_relevance judge q ctx).score ∧
      (verify_context_relevance judge q ctx).score ≤ 1 ∧
      (verify_context_relevance judge q ctx).passed =
        decide ((0.5 : ℚ) ≤ (verify_context_relevance judge q ctx).score) ∧
      (searchScore outC.data = none →
        (verify_context_relevance judge q ctx).score = 0.5 ∧
        (verify_context_relevance judge q ctx).passed = true)) ∧
    (0 ≤ (verify_answer_faithfulness judge ctx ans).score ∧
      (verify_answer_faithfulness judge ctx ans).score ≤ 1 ∧
      (verify_answer_faithfulness judge ctx ans).passed =
        decide ((0.5 : ℚ) ≤ (verify_answer_faithfulness judge ctx ans).score) ∧
      (searchScore outF.data = none →
        (verify_answer_faithfulness judge ctx ans).score = 0.5 ∧
        (verify_answer_faithfulness judge ctx ans).passed = true)) := by
  constructor
  · unfold verify_context_relevance
    rw [hC]
    refine ⟨extractScore_nonneg outC, extractScore_le_one outC, rfl, ?_⟩
    intro hnone
    refine ⟨?_, ?_⟩ <;> simp [extractScore_default hnone]
  · unfold verify_answer_faithfulness
    rw [hF]
    refine ⟨extractScore_nonneg outF, extractScore_le_one outF, rfl, ?_⟩
    intro hnone
    refine ⟨?_, ?_⟩ <;> simp [extractScore_default hnone]

/-- A judge whose output carries no [SCORE: x.x] pattern. -/
def unparsableJudge : String → Except String String :=
  fun _ => Except.ok "no score in this output"

/-- Witness for C5 at the unparsable judge output. -/
theorem C5_witness :
    (0 ≤ (verify_context_relevance unparsableJudge "q" "c").score ∧
      (verify_context_relevance unparsableJudge "q" "c").score ≤ 1 ∧
      (verify_context_relevance unparsableJudge "q" "c").passed =
        decide ((0.5 : ℚ) ≤
          (verify_context_relevance unparsableJudge "q" "c").score) ∧
      (searchScore ("no score in this output").data = none →
        (verify_context_relevance unparsableJudge "q" "c").score = 0.5 ∧
        (verify_context_relevance unparsableJudge "q" "c").passed = true)) ∧
    (0 ≤ (verify_answer_faithfulness unparsableJudge "c" "a").score ∧
      (verify_answer_faithfulness unparsableJudge "c" "a").score ≤ 1 ∧
      (verify_answer_faithfulness unparsableJudge "c" "a").passed =
        decide ((0.5 : ℚ) ≤
          (verify_answer_faithfulness unparsableJudge "c" "a").score) ∧
      (searchScore ("no score in this output").data = none →
        (verify_answer_faithfulness unparsableJudge "c" "a").score = 0.5 ∧
        (verify_answer_faithfulness unparsableJudge "c" "a").passed =
          true)) :=
  C5_judge_score_defaults unparsableJudge "q" "c" "a" _ _ rfl rfl

/-- C6: filtered retrieval over-fetches k×3 ranked candidates, keeps exactly
the prefix of those matching every filter key-value pair up to the first k,
so it returns at most k chunks, all matching. -/
theorem C6_filtered_search_overfetch (simRanked : List Doc)
    (filters : List (String × MVal)) (k : Nat) (hf : filters ≠ []) :
    filtered_search simRanked filters k =
      ((simRanked.take (k * 3)).filter (docMatches filters)).take k ∧
    (filtered_search simRanked filters k).length ≤ k ∧
    ∀ d ∈ filtered_search simRanked filters k,
      docMatches filters d = true := by
  have hmain : filtered_search simRanked filters k =
      ((simRanked.take (k * 3)).filter (docMatches filters)).take k := by
    unfold filtered_search
    rcases Nat.eq_zero_or_pos k with hk | hk
    · subst hk; simp
    · rw [fsLoop_eq filters k (simRanked.take (k * 3)) [] (by simpa using hk)]
      simp [List.take_take]
  refine ⟨hmain, ?_, ?_⟩
  · rw [hmain]; exact List.length_take_le k _
  · intro d hd
    rw [hmain] at hd
    exact List.of_mem_filter (List.mem_of_mem_take hd)

/-- C8 counterexample: `_clean_think_blocks` does not collapse blank-line
runs.  Removing the newline-containing span from
"A\n\n<think>x</think>\n\nB" leaves "A\n\n\n\nB": the interior run of four
newlines survives (a collapsed output would never contain three consecutive
newlines); only leading/trailing whitespace is stripped. -/
theorem C8_counterexample :
    clean_think_blocks "A\n\n<think>x</think>\n\nB" = "A\n\n\n\nB" ∧
    containsSub "\n\n\n".data
      (clean_think_blocks "A\n\n<think>x</think>\n\nB").data = true := by
  constructor <;> rfl

/-- C8 (amended): `_clean_think_blocks` removes every
`<think>...</think>` and `<reasoning>...</reasoning>` span — including spans
containing newlines — and then strips leading and trailing whitespace from
the result; interior blank-line runs are left as the removal produced them,
not collapsed.  Stated for one think span delimited by its first closing
tag, with no other tag occurrences around it. -/
theorem C8_clean_think_blocks_strip (a b c : List Char)
    (h1 : ∀ i < a.length,
      thinkOpenT.isPrefixOf
        ((a ++ (thinkOpenT ++ (b ++ (thinkCloseT ++ c)))).drop i) = false)
    (h2 : ∀ j < b.length,
      thinkCloseT.isPrefixOf ((b ++ (thinkCloseT ++ c)).drop j) = false)
    (h3 : ∀ i < (a ++ removeTagAll thinkOpenT thinkCloseT c).length,
      reasoningOpenT.isPrefixOf
        ((a ++ removeTagAll thinkOpenT thinkCloseT c).drop i) = false) :
    cleanThinkBlocksCL (a ++ (thinkOpenT ++ (b ++ (thinkCloseT ++ c)))) =
      pstripCL (a ++ removeTagAll thinkOpenT thinkCloseT c) := by
  unfold cleanThinkBlocksCL
  have e1 : removeTagAll thinkOpenT thinkCloseT
      (a ++ (thinkOpenT ++ (b ++ (thinkCloseT ++ c)))) =
      a ++ removeTagAll thinkOpenT thinkCloseT c := by
    rw [removeTagAll_append _ _ a _ h1]
    congr 1
    exact removeTagAll_span _ _ (by decide) (by decide) b c
      (dropThrough_first _ (by decide) b c h2)
  rw [e1, removeTagAll_id _ _ _ h3]

/-- Witness for C8 with a newline inside the removed span. -/
theorem C8_witness :
    cleanThinkBlocksCL ("An answer ".data ++
        (thinkOpenT ++ ("x\ny".data ++ (thinkCloseT ++ " here. ".data)))) =
      pstripCL ("An answer ".data ++
        removeTagAll thinkOpenT thinkCloseT " here. ".data) :=
  C8_clean_think_blocks_strip _ _ _ (by decide) (by decide) (by decide)

/-- A two-chunk store for the C6 witness: only the first chunk carries the
filtered owner id. -/
def C6store : List Doc :=
  [⟨"mine", [("user_id", MVal.int 1)]⟩, ⟨"other", [("user_id", MVal.int 2)]⟩]

/-- Witness for C6 with the nonempty filter {user_id: 1}. -/
theorem C6_witness :
    filtered_search C6store [("user_id", MVal.int 1)] 5 =
      ((C6store.take (5 * 3)).filter
        (docMatches [("user_id", MVal.int 1)])).take 5 ∧
    (filtered_search C6store [("user_id", MVal.int 1)] 5).length ≤ 5 ∧
    ∀ d ∈ filtered_search C6store [("user_id", MVal.int 1)] 5,
      docMatches [("user_id", MVal.int 1)] d = true :=
  C6_filtered_search_overfetch C6store [("user_id", MVal.int 1)] 5
    (by decide)

/-- A nonempty excluded filename excludes itself. -/
theorem pyExcludes_self (f : String) (hf : f ≠ "") :
    pyExcludes (some f) f = true := by
  have h0 : ¬ (f.isEmpty = true) := fun h => hf ((String.isEmpty_iff f).mp h)
  have h1 : f.isEmpty = false := by simpa using h0
  simp [pyExcludes, h1]

/-- C9 (amended): for a nonempty exclusion filename, `get_recommendations`
returns at most n results and none of them carries the excluded filename —
both the vector-search loop and the lexical-search merge skip candidates
bearing it, and ArXiv results carry no filename at all. -/
theorem C9_excluded_filename_never_returned (o : RecOracles) (text : String)
    (n : Nat) (f : String) (hf : f ≠ "") :
    (get_recommendations o text n (some f)).length ≤ n ∧
    ∀ r ∈ get_recommendations o text n (some f), r.filename ≠ some f := by
  constructor
  · exact List.length_take_le n _
  · intro r hr
    simp only [get_recommendations] at hr
    have h2 := List.mem_of_mem_take hr
    simp only [rerank_results] at h2
    rw [List.mem_insertionSort] at h2
    have h3 := (dedupLoop_sublist _ []).subset h2
    have hP1 : ∀ r' ∈ chromaRecos o (some f) n, r'.filename ≠ some f := by
      intro r' hr'
      obtain ⟨f', hsome, hexcl⟩ := chromaRecos_filename o (some f) n r' hr'
      rw [hsome]
      intro heq
      have : f' = f := Option.some.inj heq
      subst this
      rw [pyExcludes_self f' hf] at hexcl
      exact Bool.noConfusion hexcl
    have hP2 : ∀ r' ∈ mergeLexical (some f) (chromaRecos o (some f) n)
        (lexical_search o.lexIndex (pyTake text 1000) n),
        r'.filename ≠ some f := by
      refine mergeLexical_forall _ _ (some f) _ hP1 ?_
      intro r' _ f' h1 h2
      rw [h1]
      intro heq
      have : f' = f := Option.some.inj heq
      subst this
      rw [pyExcludes_self f' hf] at h2
      exact Bool.noConfusion h2
    by_cases hc : (mergeLexical (some f) (chromaRecos o (some f) n)
        (lexical_search o.lexIndex (pyTake text 1000) n)).length < n
    · rw [if_pos hc] at h3
      rcases List.mem_append.mp h3 with h | h
      · exact hP2 r h
      · rw [search_arxiv_filename o.arxivEntries _ r h]
        simp
    · rw [if_neg hc] at h3
      exact hP2 r h3

/-- The C9 round-trip oracle: one document ingested by
`add_document_from_article`, whose vector chunks carry
`source = article.file_path` (stored under the generated unique name
uploads/file_ab12.pdf, see `generate_unique_filename`) while its lexical
record is keyed by `article.original_filename` ("paper.pdf", see
`_index_document_for_lexical_search`). -/
def C9oracle : RecOracles :=
  { chromaRanked := [⟨"photosynthesis converts light energy",
      [("source", MVal.str "uploads/file_ab12.pdf"),
        ("article_id", MVal.int 7)]⟩]
    articleOf := fun i => if i = 7 then some ⟨"Paper", "payload"⟩ else none
    lexIndex := [("paper.pdf", ⟨"photosynthesis converts light energy",
      ["photosynthesis converts light energy"]⟩)]
    arxivEntries := []
    sem := fun _ => 0
    nowYear := 2025 }

set_option maxRecDepth 2000 in
/-- C9 counterexample: the same ingested document is indexed under two
different identifiers — basename(file_path) in the vector store,
original_filename in the lexical index — so recommending its own content
while excluding either one of its identifiers still returns the document
through the other candidate source. -/
theorem C9_counterexample :
    ((get_recommendations C9oracle "photosynthesis converts light energy" 3
        (some "file_ab12.pdf")).any
      fun r => r.filename == some "paper.pdf") = true ∧
    ((get_recommendations C9oracle "photosynthesis converts light energy" 3
        (some "paper.pdf")).any
      fun r => r.filename == some "file_ab12.pdf") = true := by
  constructor <;> rfl

/-- Witness for C9 at the concrete oracle. -/
theorem C9_witness :
    (get_recommendations C9oracle "t" 2 (some "x.pdf")).length ≤ 2 ∧
    ∀ r ∈ get_recommendations C9oracle "t" 2 (some "x.pdf"),
      r.filename ≠ some "x.pdf" :=
  C9_excluded_filename_never_returned C9oracle "t" 2 "x.pdf" (by decide)

/-- C10: `_rerank_results` first deduplicates by the (source,
stable-identifier) key — local results keyed by filename, everything else by
source and title, keys pairwise distinct afterwards, candidates kept in
discovery order — and then orders by descending composite score (base weight
local 1.0, arxiv 0.6, plus bonuses) with Python's stable sort, so candidates
of equal score stay in discovery order. -/
theorem C10_rerank_dedup_stable_sort (o : RecOracles) (results : List Reco) :
    (rerank_results o results).Perm (dedupLoop results []) ∧
    List.Sorted (fun u v => recoScore o v ≤ recoScore o u)
      (rerank_results o results) ∧
    (∀ q : ℚ,
      (rerank_results o results).filter (fun r => recoScore o r == q) =
        (dedupLoop results []).filter (fun r => recoScore o r == q)) ∧
    (dedupLoop results []).Sublist results ∧
    ((dedupLoop results []).filterMap identifierOf).Nodup ∧
    (∀ r : Reco, ∀ fn : String, r.source = "local" → r.filename = some fn →
      identifierOf r = some ("local:" ++ fn)) ∧
    (∀ r : Reco, r.source ≠ "local" →
      identifierOf r = some (r.source ++ ":" ++ r.title)) ∧
    (∀ r : Reco, r.source = "local" → baseScore o.nowYear r = 1) ∧
    (∀ r : Reco, r.source = "arxiv" → r.year.getD 0 < 2024 →
      baseScore o.nowYear r = 0.6) := by
  haveI hTot : IsTotal Reco (fun u v => recoScore o v ≤ recoScore o u) :=
    ⟨fun a b => le_total (recoScore o b) (recoScore o a)⟩
  haveI hTrans : IsTrans Reco (fun u v => recoScore o v ≤ recoScore o u) :=
    ⟨fun _ _ _ hab hbc => le_trans hbc hab⟩
  refine ⟨List.perm_insertionSort _ _, List.sorted_insertionSort _ _,
    fun q => filter_insertionSort (recoScore o) q _,
    dedupLoop_sublist results [], (dedupLoop_nodup results []).1,
    ?_, ?_, ?_, ?_⟩
  · intro r fn h1 h2
    simp [identifierOf, h1, h2]
  · intro r h
    simp [identifierOf, h]
  · intro r h
    simp [baseScore, h]
  · intro r h hy
    rw [baseScore, if_neg (by rw [h]; omega)]
    simp [h]

def C10oracle : RecOracles :=
  { chromaRanked := [], articleOf := fun _ => none, lexIndex := []
    arxivEntries := [], sem := fun _ => 0, nowYear := 2025 }

/-- Two equal-scored local candidates sharing a key plus one ArXiv
candidate, for the C10 witness. -/
def C10results : List Reco :=
  [⟨"A", "sa", "local", "x", some "a.pdf", none, none, none, none, none⟩,
   ⟨"B", "sb", "arxiv", "y", none, none, none, none, none, some 2024⟩,
   ⟨"A", "sa2", "local", "x", some "a.pdf", none, none, none, none, none⟩]

/-- Witness for C10 at the concrete candidate list. -/
theorem C10_witness :
    (rerank_results C10oracle C10results).Perm (dedupLoop C10results []) ∧
    List.Sorted (fun u v =>
      recoScore C10oracle v ≤ recoScore C10oracle u)
      (rerank_results C10oracle C10results) ∧
    (∀ q : ℚ,
      (rerank_results C10oracle C10results).filter
          (fun r => recoScore C10oracle r == q) =
        (dedupLoop C10results []).filter
          (fun r => recoScore C10oracle r == q)) ∧
    (dedupLoop C10results []).Sublist C10results ∧
    ((dedupLoop C10results []).filterMap identifierOf).Nodup ∧
    (∀ r : Reco, ∀ fn : String, r.source = "local" → r.filename = some fn →
      identifierOf r = some ("local:" ++ fn)) ∧
    (∀ r : Reco, r.source ≠ "local" →
      identifierOf r = some (r.source ++ ":" ++ r.title)) ∧
    (∀ r : Reco, r.source = "local" →
      baseScore C10oracle.nowYear r = 1) ∧
    (∀ r : Reco, r.source = "arxiv" → r.year.getD 0 < 2024 →
      baseScore C10oracle.nowYear r = 0.6) :=
  C10_rerank_dedup_stable_sort C10oracle C10results

end Rag
